import Mathlib

/-!
Verification development for the pairing pipeline execution engine
(src/pipeline.py of the image_processor_pipeline repository).

The Python source is shallowly embedded: file-system paths are strings,
the transformation callable is modelled by its observable behaviour
(a function from an argument tuple to either a returned Python value or
a raised exception message), and the two execution modes of
ProcessingStep._processing_loop are translated into explicit recursive
functions.  Randomness (random.sample, random.shuffle) and the worker
pool completion order are injected as explicit parameters, as the spec
directs for a seedable random source.
-/

/-- Paths are modelled as plain strings (pathlib.Path values in the source). -/
abbrev FPath := String

/-- One positional argument of a generated tuple.  Most pairing modes yield
paths only; the sample mode of _generate_processing_inputs also yields
boolean flags. -/
inductive Arg where
  | path (p : FPath)
  | flag (b : Bool)
deriving DecidableEq

/-- An argument tuple passed to one invocation of process_function. -/
abbrev ArgTuple := List Arg

/-- The status strings written into a log entry by _processing_loop and
_build_log. -/
inductive Status where
  | pending            -- "Pending"
  | pendingExecution   -- "Pending Execution"
  | success            -- "Success"
  | noOutput           -- "no_output"
  | typeError          -- "Type Error"
  | error              -- "Error"
  | submissionError    -- "Submission Error"
deriving DecidableEq

/-- One element of ProcessingStep.process_logs. -/
structure LogEntry where
  inputs : List Arg
  outputs : Option (List FPath)
  status : Status
  errorMessage : Option String
deriving DecidableEq

/-- A Python value appearing inside a list returned by process_function:
either a pathlib.Path or something else (described by a string). -/
inductive PyVal where
  | vPath (p : FPath)
  | vOther (descr : String)
deriving DecidableEq

/-- The value returned by a successful call of process_function, as
inspected by _build_log: None, a single Path, a list, or any other
object together with its truthiness. -/
inductive PyRet where
  | rNone
  | rPath (p : FPath)
  | rList (xs : List PyVal)
  | rOther (truthy : Bool) (descr : String)
deriving DecidableEq

/-- Observable behaviour of one invocation of process_function:
either it returns a value or it raises an exception with a message. -/
inductive CallOutcome where
  | ret (v : PyRet)
  | raises (msg : String)
deriving DecidableEq

/-- Python truthiness of a process_function return value, as used by the
`if saved_output_paths:` test in _build_log. -/
def pyTruthy : PyRet → Bool
  | PyRet.rNone => false
  | PyRet.rPath _ => true
  | PyRet.rList xs => !xs.isEmpty
  | PyRet.rOther b _ => b

/-- isinstance(x, Path) for a list element. -/
def isPathVal : PyVal → Bool
  | PyVal.vPath _ => true
  | PyVal.vOther _ => false

/-- Extract the path of a list element when it is one. -/
def pathValOf : PyVal → Option FPath
  | PyVal.vPath p => some p
  | PyVal.vOther _ => Option.none

/-- Whether an invocation raised. -/
def isRaise : CallOutcome → Bool
  | CallOutcome.ret _ => false
  | CallOutcome.raises _ => true

/-- The log entry created at the top of each iteration of
_processing_loop, before the callable is invoked.  The sequential branch
uses status "Pending", the worker-pool branch "Pending Execution". -/
def initEntry (st : Status) (t : ArgTuple) : LogEntry :=
  { inputs := t, outputs := Option.none, status := st, errorMessage := Option.none }

/-- ProcessingStep._build_log: updates a log entry from the value returned
by process_function and reports whether the item counts as a success. -/
def buildLog (entry : LogEntry) (v : PyRet) : LogEntry × Bool :=
  if pyTruthy v then
    match v with
    | PyRet.rPath p =>
      ({ entry with outputs := some [p], status := Status.success }, true)
    | PyRet.rList xs =>
      if xs.all isPathVal then
        ({ entry with outputs := some (xs.filterMap pathValOf), status := Status.success }, true)
      else
        ({ entry with status := Status.typeError,
                      errorMessage := some "Retour invalide" }, false)
    | _ =>
      ({ entry with status := Status.typeError,
                    errorMessage := some "Retour invalide" }, false)
  else
    ({ entry with status := Status.noOutput }, false)

/-- One iteration of the sequential branch of _processing_loop: invoke the
callable inside try/except, classify the outcome, and report the final
log entry together with the success flag. -/
def processItem (f : ArgTuple → CallOutcome) (t : ArgTuple) : LogEntry × Bool :=
  match f t with
  | CallOutcome.ret v => buildLog (initEntry Status.pending t) v
  | CallOutcome.raises m =>
    ({ initEntry Status.pending t with status := Status.error, errorMessage := some m }, false)

/-- Result of a completed _processing_loop: the accumulated process_logs
and the (success_count, error_count) pair it returns. -/
abbrev ProcResult := List LogEntry × Nat × Nat

/-- The sequential branch of _processing_loop: items are processed in
generator order, every item appends exactly one log entry, and a raising
item is recorded with status Error without stopping the loop. -/
def seqLoop (f : ArgTuple → CallOutcome) : List ArgTuple → ProcResult
  | [] => ([], 0, 0)
  | t :: ts =>
    let (entry, ok) := processItem f t
    let (logs, s, e) := seqLoop f ts
    (entry :: logs, (if ok then s + 1 else s), (if ok then e else e + 1))

/-- Errors that a lazy advance of _generate_processing_inputs can raise.
Because the Python function is a generator, these are raised on first
iteration inside _processing_loop, not at the call site in run. -/
inductive GenError where
  | emptyInput (dirs : List FPath)  -- FileNotFoundError naming the empty input dirs
  | valueError (msg : String)       -- mode precondition violations, bad sample size
  | indexError                      -- sample ids past the bounds of a shorter listing
deriving DecidableEq

/-- An uncaught exception that aborts _processing_loop (and, since run
and ProcessingPipeline.run install no handler around the loop, the whole
step and pipeline run). -/
inductive StepAbort where
  | gen (e : GenError)   -- generator exception surfacing during iteration
  | runtimeNoArgs        -- RuntimeError: no arguments after generation (pool mode)
  | unboundLocal         -- UnboundLocalError from the errors_count typo (pool mode)
  | badWorkers           -- ValueError from the final else on the worker count
deriving DecidableEq

/-- The worker-pool result collection loop of _processing_loop, processed
in completion order.  A normally returning future is logged exactly like
the sequential branch; a raising future enters the except block which
executes the statement errors_count += 1 on a never-assigned local name,
so Python raises UnboundLocalError there: the entry of the raising item
is never appended and the remaining futures are never drained.  On abort
the partial process_logs accumulated so far are carried in the error. -/
def parLoopGo (f : ArgTuple → CallOutcome) :
    List ArgTuple → Except (StepAbort × List LogEntry) ProcResult
  | [] => Except.ok ([], 0, 0)
  | t :: ts =>
    match f t with
    | CallOutcome.raises _ => Except.error (StepAbort.unboundLocal, [])
    | CallOutcome.ret v =>
      let (entry, ok) := buildLog (initEntry Status.pendingExecution t) v
      match parLoopGo f ts with
      | Except.ok (logs, s, e) =>
        Except.ok (entry :: logs, (if ok then s + 1 else s), (if ok then e else e + 1))
      | Except.error pr => Except.error (pr.1, entry :: pr.2)

/-- ProcessingStep._processing_loop.  The generator is consumed lazily, so
a generation error surfaces here in both modes.  The sequential branch
runs when 0 <= workers <= 1; the worker-pool branch first materialises
the whole tuple sequence, raises RuntimeError when it is empty, then
drains the futures in completion order (the order in which
concurrent.futures.as_completed yields them), given here by the injected
complete parameter. -/
def processingLoop (f : ArgTuple → CallOutcome) (w : Int)
    (complete : List ArgTuple → List ArgTuple)
    (gen : Except GenError (List ArgTuple)) :
    Except (StepAbort × List LogEntry) ProcResult :=
  if 0 ≤ w ∧ w ≤ 1 then
    match gen with
    | Except.error ge => Except.error (StepAbort.gen ge, [])
    | Except.ok ts => Except.ok (seqLoop f ts)
  else if 1 < w ∨ w = -1 then
    match gen with
    | Except.error ge => Except.error (StepAbort.gen ge, [])
    | Except.ok ts =>
      if ts.isEmpty then Except.error (StepAbort.runtimeNoArgs, [])
      else parLoopGo f (complete ts)
  else
    Except.error (StepAbort.badWorkers, [])

/-- The five pairing modes of MODES in the source. -/
inductive Mode where
  | one_input
  | zip
  | modulo
  | sample
  | custom
deriving DecidableEq

/-- The configuration of a ProcessingStep, as it stands after __init__
(paths already resolved against the step root).  process_function is
modelled by its observable behaviour on an argument tuple;
parallels_workers is the already clamped worker count. -/
structure Step where
  name : String
  processFunction : ArgTuple → CallOutcome
  inputPaths : List FPath
  outputPaths : List FPath
  pairingMethod : Mode
  pairingFunction : Option (List (List FPath) → List ArgTuple) := Option.none
  fixedInput : Bool := false
  rootDir : Option FPath := Option.none
  sampleK : Option Nat := Option.none
  parallelsWorkers : Int := 1
  saveLog : Bool := false

/-- The random draws consumed by one run, injected explicitly: the
random.sample over an index range used by sample_k, the random.shuffle
of the second modulo listing, the two random.sample calls of the sample
mode, and the order in which as_completed yields the pool futures. -/
structure RandomSource where
  sampleIds : Nat → Nat → List Nat
  shuffle : List FPath → List FPath
  sampleBlur : List FPath → Nat → List FPath
  sampleRgb : List FPath → Nat → List FPath
  complete : List ArgTuple → List ArgTuple

/-- The input directories whose listings are empty, in directory order:
the list interpolated into the FileNotFoundError message of the empty
check of _generate_processing_inputs. -/
def emptyFolders (inputPaths : List FPath) (lists : List (List FPath)) : List FPath :=
  ((inputPaths.zip lists).filter (fun pr => pr.2.isEmpty)).map (fun pr => pr.1)

/-- The inner comprehension of the sample_k step: element i of one
listing for each drawn id, IndexError (None) when an id is out of range. -/
def sampleOne (ids : List Nat) (l : List FPath) : Option (List FPath) :=
  match ids with
  | [] => some []
  | i :: rest =>
    match l[i]?, sampleOne rest l with
    | some x, some xs => some (x :: xs)
    | _, _ => Option.none

/-- The outer comprehension of the sample_k step: the same drawn ids
applied to every input listing. -/
def sampleAll (ids : List Nat) : List (List FPath) → Option (List (List FPath))
  | [] => some []
  | l :: ls =>
    match sampleOne ids l, sampleAll ids ls with
    | some x, some xs => some (x :: xs)
    | _, _ => Option.none

/-- The sample_k pre-selection of _generate_processing_inputs.  Python
skips it when sample_k is falsy (absent or 0).  random.sample raises
ValueError when asked for more ids than the population holds; the ids
are drawn from the index range of the first listing only, and applying
them to a shorter listing is an IndexError. -/
def applySampleK (s : Step) (rnd : RandomSource) (lists : List (List FPath)) :
    Except GenError (List (List FPath)) :=
  match s.sampleK with
  | Option.none => Except.ok lists
  | some k =>
    if k = 0 then Except.ok lists
    else
      match lists with
      | [] => Except.error GenError.indexError  -- input_file_lists[0] on an empty list
      | l0 :: _ =>
        if l0.length < k then
          Except.error (GenError.valueError "Sample larger than population")
        else
          match sampleAll (rnd.sampleIds l0.length k) lists with
          | some ls => Except.ok ls
          | Option.none => Except.error GenError.indexError

/-- The length of the shortest listing: the number of tuples zip yields. -/
def minLen : List (List FPath) → Nat
  | [] => 0
  | [l] => l.length
  | l :: l2 :: ls => min l.length (minLen (l2 :: ls))

/-- zip(*input_file_lists): element-wise tuples, truncated to the
shortest listing.  zip of no iterables yields nothing. -/
def nzip (ls : List (List FPath)) : List (List FPath) :=
  match ls with
  | [] => []
  | _ :: _ => (List.range (minLen ls)).map (fun i => ls.map (fun l => l.getD i ""))

/-- The modulo pairing: for i, path1 in enumerate(list1), pair path1 with
the already shuffled second listing at index i mod its length.  The
index i mod length is in range whenever the second listing is nonempty
(the empty case is excluded by the empty check before generation). -/
def moduloPairs (l1 l2s : List FPath) : List ArgTuple :=
  (List.range l1.length).map
    (fun i => [Arg.path (l1.getD i ""), Arg.path (l2s.getD (i % l2s.length) "")])

/-- The per-mode tuple production of _generate_processing_inputs, after
the empty check and the sample_k pre-selection.  The sizes of the two
random subsets of the sample mode model int(len(files) * 0.3). -/
def pairTuples (s : Step) (rnd : RandomSource) (lists : List (List FPath)) :
    Except GenError (List ArgTuple) :=
  match s.pairingMethod with
  | Mode.one_input =>
    match lists with
    | [] => Except.error (GenError.valueError "Mode one_input mais aucun dossier fourni")
    | l0 :: _ => Except.ok (l0.map (fun p => [Arg.path p]))
  | Mode.zip =>
    if lists.length < 2 then
      Except.error (GenError.valueError "Le mode zip requiert au moins 2 dossiers")
    else
      Except.ok ((nzip lists).map (fun tup => tup.map Arg.path))
  | Mode.modulo =>
    match lists with
    | [l1, l2] => Except.ok (moduloPairs l1 (rnd.shuffle l2))
    | _ => Except.error (GenError.valueError "Le mode modulo requiert exactement 2 dossiers")
  | Mode.sample =>
    match lists with
    | [] => Except.error GenError.indexError  -- input_file_lists[0] on an empty list
    | l0 :: _ =>
      let blur := rnd.sampleBlur l0 (3 * l0.length / 10)
      let rgb := rnd.sampleRgb l0 (3 * l0.length / 10)
      Except.ok (l0.map
        (fun p => [Arg.path p, Arg.flag (blur.contains p), Arg.flag (rgb.contains p)]))
  | Mode.custom =>
    match s.pairingFunction with
    | Option.none => Except.error (GenError.valueError "pairing_function manquante")
    | some pf => Except.ok (pf lists)

/-- ProcessingStep._generate_processing_inputs as the finite sequence of
tuples it yields, or the exception its first advance raises: first the
empty-listing check naming the offending directories, then the sample_k
pre-selection, then the mode dispatch. -/
def generateProcessingInputs (s : Step) (rnd : RandomSource)
    (lists : List (List FPath)) : Except GenError (List ArgTuple) :=
  if lists.any List.isEmpty then
    Except.error (GenError.emptyInput (emptyFolders s.inputPaths lists))
  else do
    let sampled ← applySampleK s rnd lists
    pairTuples s rnd sampled

/-- Code-point lexicographic comparison on character lists, the order in
which Python compares the strings underlying Path values. -/
def lexLe : List Char → List Char → Bool
  | [], _ => true
  | _ :: _, [] => false
  | c :: cs, d :: ds =>
    if c.toNat < d.toNat then true
    else if d.toNat < c.toNat then false
    else lexLe cs ds

/-- Lexicographic comparison of two path strings. -/
def strLe (a b : String) : Bool := lexLe a.data b.data

/-- Lexicographic insertion used to model sorted() over the files of a
directory. -/
def insertSorted (x : String) : List String → List String
  | [] => [x]
  | y :: ys => if strLe x y then x :: y :: ys else y :: insertSorted x ys

/-- sorted(f for f in input_dir.iterdir() if f.is_file()). -/
def sortFiles (l : List String) : List String := l.foldr insertSorted []

/-- The file system seen by a run: a directory path maps to the list of
its regular files, or to none when it does not exist. -/
abbrev DirListing := FPath → Option (List FPath)

/-- The directory loop of _get_files_from_inputs: FileNotFoundError on a
missing directory, otherwise the sorted file listing per directory. -/
def listDirs (fs : DirListing) : List FPath → Except String (List (List FPath))
  | [] => Except.ok []
  | d :: ds =>
    match fs d with
    | Option.none => Except.error ("FileNotFoundError: " ++ d)
    | some files =>
      match listDirs fs ds with
      | Except.ok rest => Except.ok (sortFiles files :: rest)
      | Except.error e => Except.error e

/-- ProcessingStep._get_files_from_inputs: ValueError when no input
directory is configured, else one sorted listing per directory. -/
def getFilesFromInputs (fs : DirListing) (inputPaths : List FPath) :
    Except String (List (List FPath)) :=
  if inputPaths.isEmpty then
    Except.error "ValueError: aucun dossier d entree defini"
  else
    listDirs fs inputPaths

/-- What a completed ProcessingStep.run reports: either a precondition
failure caught inside run (printed and swallowed: the method returns
normally), or the accumulated log with the success and error counts. -/
inductive RunOutcome where
  | preconditionFailed (msg : String)
  | completed (logs : List LogEntry) (successCount : Nat) (errorCount : Nat)
deriving DecidableEq

/-- ProcessingStep.run.  Output directory creation is assumed to succeed
(the claims under verification do not involve mkdir failures).  The
listing step is guarded by the except clause of run and turns into a
non-fatal precondition failure; the generator, being lazy, raises only
inside _processing_loop, where nothing catches it, so a generation
error aborts the whole run (the try around the generator call in run
catches nothing because the generator body has not started). -/
def stepRun (s : Step) (fs : DirListing) (rnd : RandomSource) :
    Except (StepAbort × List LogEntry) RunOutcome :=
  match getFilesFromInputs fs s.inputPaths with
  | Except.error msg => Except.ok (RunOutcome.preconditionFailed msg)
  | Except.ok lists =>
    match processingLoop s.processFunction s.parallelsWorkers rnd.complete
        (generateProcessingInputs s rnd lists) with
    | Except.error pr => Except.error pr
    | Except.ok (logs, sc, ec) => Except.ok (RunOutcome.completed logs sc ec)

/-- is_absolute() of the model: absolute paths start with a slash. -/
def isAbsolute (p : FPath) : Bool := p.startsWith "/"

/-- ProcessingStep._resolve_paths: a relative path is joined under the
root when one is set, an absolute path is kept. -/
def resolvePaths (root : Option FPath) (dirs : List FPath) : List FPath :=
  dirs.map (fun d =>
    match root with
    | some r => if isAbsolute d then d else r ++ "/" ++ d
    | Option.none => d)

/-- ProcessingPipeline: the ordered step list and the optional pipeline
root directory. -/
structure Pipeline where
  steps : List Step
  rootDir : Option FPath := Option.none

/-- Python list.insert: past-the-end positions append. -/
def listInsert : Nat → α → List α → List α
  | 0, a, l => a :: l
  | _ + 1, a, [] => [a]
  | n + 1, a, x :: xs => x :: listInsert n a xs

/-- Python list item assignment at an index known to be in range. -/
def listSet : Nat → α → List α → List α
  | _, _, [] => []
  | 0, a, _ :: xs => a :: xs
  | n + 1, a, x :: xs => x :: listSet n a xs

/-- ProcessingPipeline.add_step.  A first step must carry explicit
inputs; the pipeline root is propagated to a rootless step and its paths
re-resolved; a step arriving without inputs inherits the previous step
outputs (no fixed_input check on the inserted step itself), and when a
next step exists and is not fixed_input its inputs are rewired to the
inserted step outputs; finally the step is inserted at the position. -/
def add_step (pl : Pipeline) (step0 : Step) (position : Option Nat) :
    Except String Pipeline :=
  if pl.steps.isEmpty ∧ step0.inputPaths.isEmpty then
    Except.error "ValueError: la premiere etape doit avoir input_dirs definie"
  else
    let step1 :=
      if pl.rootDir.isSome ∧ step0.rootDir.isNone then
        { step0 with rootDir := pl.rootDir,
                     inputPaths := resolvePaths pl.rootDir step0.inputPaths,
                     outputPaths := resolvePaths pl.rootDir step0.outputPaths }
      else step0
    let pos := position.getD pl.steps.length
    if step1.inputPaths.isEmpty then
      if pos = 0 then
        Except.error "IndexError: insertion en premiere position sans inputs"
      else
        match pl.steps[pos - 1]? with
        | Option.none => Except.error "ValueError: position d insertion invalide"
        | some previous =>
          let step2 := { step1 with inputPaths := previous.outputPaths }
          let newSteps :=
            match pl.steps[pos]? with
            | some nextStep =>
              if nextStep.fixedInput then pl.steps
              else listSet pos { nextStep with inputPaths := step2.outputPaths } pl.steps
            | Option.none => pl.steps
          Except.ok { pl with steps := listInsert pos step2 newSteps }
    else
      Except.ok { pl with steps := listInsert pos step1 pl.steps }

/-- The exceptions that escape ProcessingPipeline.run: the explicit
IndexError on a bad start index, or an abort propagating out of a
step run (nothing in the pipeline loop catches step exceptions). -/
inductive PipelineError where
  | badIndex (i n : Nat)
  | abort (a : StepAbort) (logsSoFar : List LogEntry)

/-- The step loop of ProcessingPipeline.run: each selected step runs in
order; an abort propagates immediately, so later steps never run. -/
def runSelected (fs : DirListing) (rnd : RandomSource) :
    List Step → Except PipelineError (List RunOutcome)
  | [] => Except.ok []
  | s :: ss =>
    match stepRun s fs rnd with
    | Except.error pr => Except.error (PipelineError.abort pr.1 pr.2)
    | Except.ok r =>
      match runSelected fs rnd ss with
      | Except.error e => Except.error e
      | Except.ok rs => Except.ok (r :: rs)

/-- ProcessingPipeline.run(from_step_index, only_one). -/
def pipelineRun (pl : Pipeline) (fs : DirListing) (rnd : RandomSource)
    (fromIdx : Nat) (onlyOne : Bool) : Except PipelineError (List RunOutcome) :=
  if h : fromIdx < pl.steps.length then
    runSelected fs rnd (if onlyOne then [pl.steps[fromIdx]] else pl.steps.drop fromIdx)
  else
    Except.error (PipelineError.badIndex fromIdx pl.steps.length)

/-! Concrete fixtures used by the closed evaluations below. -/

/-- A callable that always returns None. -/
def procNone : ArgTuple → CallOutcome := fun _ => CallOutcome.ret PyRet.rNone

/-- A callable that always returns the single output path "out". -/
def procOut : ArgTuple → CallOutcome := fun _ => CallOutcome.ret (PyRet.rPath "out")

/-- A callable that always raises. -/
def fBoom : ArgTuple → CallOutcome := fun _ => CallOutcome.raises "boom"

/-- A trivial random source: used where no random draw matters. -/
def rnd0 : RandomSource :=
  { sampleIds := fun _ _ => [], shuffle := id,
    sampleBlur := fun _ _ => [], sampleRgb := fun _ _ => [], complete := id }

/-- A callable raising exactly on the middle item b of three. -/
def fC1 : ArgTuple → CallOutcome := fun t =>
  if t = [Arg.path "b"] then CallOutcome.raises "boom"
  else CallOutcome.ret (PyRet.rPath "out")

/-- Three argument tuples, the second of which makes fC1 raise. -/
def tsC1 : List ArgTuple := [[Arg.path "a"], [Arg.path "b"], [Arg.path "c"]]

/-- A callable raising exactly on the first zip pair (a1, b1). -/
def fC2fun : ArgTuple → CallOutcome := fun t =>
  if t = [Arg.path "a1", Arg.path "b1"] then CallOutcome.raises "boom"
  else CallOutcome.ret (PyRet.rPath "out")

/-- Two input directories of two files each. -/
def fsC2 : DirListing := fun d =>
  if d = "dA" then some ["a1", "a2"]
  else if d = "dB" then some ["b1", "b2"]
  else Option.none

/-- A zip step over dA and dB running on a pool of two workers. -/
def stepC2 : Step :=
  { name := "s2", processFunction := fC2fun, inputPaths := ["dA", "dB"],
    outputPaths := ["o2"], pairingMethod := Mode.zip, parallelsWorkers := 2 }

/-- Two argument tuples for the sequential/parallel comparison. -/
def tsC3 : List ArgTuple := [[Arg.path "x"], [Arg.path "y"]]

/-- First pipeline step for the fixed-input counterexample. -/
def stepA4 : Step :=
  { name := "A", processFunction := procNone, inputPaths := ["inA"],
    outputPaths := ["outA"], pairingMethod := Mode.one_input }

/-- A fixed-input step added with (transiently) empty input dirs. -/
def stepB4 : Step :=
  { name := "B", processFunction := procNone, inputPaths := [],
    outputPaths := ["outB"], pairingMethod := Mode.one_input, fixedInput := true }

/-- One-step pipeline holding stepA4. -/
def plC4 : Pipeline := { steps := [stepA4] }

/-- A fixed-input step already wired, sitting at the insertion point. -/
def nextW4 : Step :=
  { name := "N", processFunction := procNone, inputPaths := ["inN"],
    outputPaths := ["outN"], pairingMethod := Mode.one_input, fixedInput := true }

/-- A step with explicit inputs inserted in front of nextW4. -/
def selfW4 : Step :=
  { name := "S", processFunction := procNone, inputPaths := ["inS"],
    outputPaths := ["outS"], pairingMethod := Mode.one_input }

/-- Pipeline holding only nextW4, target of the witness insertion. -/
def plW4 : Pipeline := { steps := [nextW4] }

/-- The pipeline obtained by inserting selfW4 at position 0 of plW4. -/
def plW4b : Pipeline := { steps := [selfW4, nextW4] }

/-- File system for the empty-input-directory run: dEmpty exists but
holds no file, dFull holds one. -/
def fsC5 : DirListing := fun d =>
  if d = "dEmpty" then some []
  else if d = "dFull" then some ["f"]
  else Option.none

/-- First step of the C5 pipeline: reads the existing but empty dEmpty. -/
def stepC5a : Step :=
  { name := "s5a", processFunction := procOut, inputPaths := ["dEmpty"],
    outputPaths := ["o5a"], pairingMethod := Mode.one_input }

/-- Second step of the C5 pipeline: reads dFull and succeeds on its own. -/
def stepC5b : Step :=
  { name := "s5b", processFunction := procOut, inputPaths := ["dFull"],
    outputPaths := ["o5b"], pairingMethod := Mode.one_input }

/-- The two-step pipeline whose first step sees an empty listing. -/
def plC5 : Pipeline := { steps := [stepC5a, stepC5b] }

/-- Random source drawing the ids 0 and 2 from the first index range. -/
def rndC6 : RandomSource := { rnd0 with sampleIds := fun _ _ => [0, 2] }

/-- A step with sample_k = 2 over two input directories. -/
def stepC6 : Step :=
  { name := "s6", processFunction := procNone, inputPaths := ["d0", "d1"],
    outputPaths := ["o6"], pairingMethod := Mode.one_input, sampleK := some 2 }

/-- Listings of length 3 and 2: both at least sample_k = 2 long, yet the
second is shorter than the first listing whose index range is sampled. -/
def listsC6 : List (List FPath) := [["a0", "a1", "a2"], ["b0", "b1"]]

/-- Random source drawing the ids 1 and 0 for the amended-claim witness. -/
def rndC6w : RandomSource := { rnd0 with sampleIds := fun _ _ => [1, 0] }

/-- Step with sample_k = 2 for the amended-claim witness. -/
def stepC6w : Step := { stepC6 with name := "s6w" }

/-- Equal-length listings for the amended-claim witness. -/
def listsC6w : List (List FPath) := [["x", "y"], ["p", "q"]]

/-- A modulo step for the C7 witness. -/
def stepC7 : Step :=
  { name := "s7", processFunction := procNone, inputPaths := ["dX", "dY"],
    outputPaths := ["o7"], pairingMethod := Mode.modulo }

/-- A step whose pipeline add witnesses the C8 chaining rules. -/
def stepA8 : Step :=
  { name := "A8", processFunction := procNone, inputPaths := ["inA8"],
    outputPaths := ["outA8"], pairingMethod := Mode.one_input }

/-- Successor step of the C8 witness pipeline, not fixed-input. -/
def stepB8 : Step :=
  { name := "B8", processFunction := procNone, inputPaths := ["outA8"],
    outputPaths := ["outB8"], pairingMethod := Mode.one_input }

/-- Step inserted between stepA8 and stepB8 with no explicit inputs. -/
def stepX8 : Step :=
  { name := "X8", processFunction := procNone, inputPaths := [],
    outputPaths := ["outX8"], pairingMethod := Mode.one_input }

/-- Two-step pipeline A8 then B8 for the C8 witness. -/
def plC8 : Pipeline := { steps := [stepA8, stepB8] }

/-- A zip step for the C9 witness. -/
def stepC9 : Step :=
  { name := "s9", processFunction := procNone, inputPaths := ["d9a", "d9b"],
    outputPaths := ["o9"], pairingMethod := Mode.zip }

/-- Listings of length 5 and 3 for the C9 witness. -/
def listsC9 : List (List FPath) := [["a", "b", "c", "d", "e"], ["p", "q", "r"]]

/-- Input directory of the empty-generation run. -/
def fsC10 : DirListing := fun d => if d = "dC" then some ["f"] else Option.none

/-- A custom-pairing step whose pairing function yields no tuple, run on
a pool of two workers. -/
def stepC10 : Step :=
  { name := "s10", processFunction := procOut, inputPaths := ["dC"],
    outputPaths := ["o10"], pairingMethod := Mode.custom,
    pairingFunction := some (fun _ => []), parallelsWorkers := 2 }

/-- The same step run sequentially. -/
def stepC10seq : Step := { stepC10 with parallelsWorkers := 1 }




/-! Helper lemmas. -/

theorem buildLog_inputs (e : LogEntry) (v : PyRet) : (buildLog e v).1.inputs = e.inputs := by
  unfold buildLog
  repeat' split
  all_goals rfl

theorem buildLog_initEntry (t : ArgTuple) (a b : Status) (v : PyRet) :
    buildLog (initEntry a t) v = buildLog (initEntry b t) v := by
  unfold buildLog initEntry
  repeat' split
  all_goals rfl

theorem processItem_inputs (f : ArgTuple → CallOutcome) (t : ArgTuple) :
    (processItem f t).1.inputs = t := by
  unfold processItem
  cases f t with
  | ret v => rw [buildLog_inputs]; rfl
  | raises m => rfl

theorem parLoopGo_no_raise (f : ArgTuple → CallOutcome) (l : List ArgTuple)
    (h : ∀ t ∈ l, isRaise (f t) = false) :
    parLoopGo f l = Except.ok (seqLoop f l) := by
  induction l with
  | nil => rfl
  | cons t ts ih =>
    have ht := h t (List.mem_cons_self t ts)
    cases hft : f t with
    | raises m => rw [hft] at ht; simp [isRaise] at ht
    | ret v =>
      have ihe := ih (fun x hx => h x (List.mem_cons_of_mem t hx))
      simp only [parLoopGo, seqLoop, hft, processItem, ihe,
        buildLog_initEntry t Status.pendingExecution Status.pending v]

theorem seqLoop_logs (f : ArgTuple → CallOutcome) (l : List ArgTuple) :
    (seqLoop f l).1 = l.map (fun t => (processItem f t).1) := by
  induction l with
  | nil => rfl
  | cons t ts ih => simp only [seqLoop, List.map_cons, ← ih]

theorem seqLoop_success (f : ArgTuple → CallOutcome) (l : List ArgTuple) :
    (seqLoop f l).2.1 = l.countP (fun t => (processItem f t).2) := by
  induction l with
  | nil => rfl
  | cons t ts ih =>
    simp only [seqLoop, List.countP_cons, ih]
    by_cases h : (processItem f t).2 = true <;> simp [h]

theorem seqLoop_errors (f : ArgTuple → CallOutcome) (l : List ArgTuple) :
    (seqLoop f l).2.2 = l.countP (fun t => !(processItem f t).2) := by
  induction l with
  | nil => rfl
  | cons t ts ih =>
    simp only [seqLoop, List.countP_cons, ih]
    by_cases h : (processItem f t).2 = true <;> simp [h]

theorem generate_no_sample (s : Step) (rnd : RandomSource) (lists : List (List FPath))
    (hk : s.sampleK = Option.none) (hne : ∀ l ∈ lists, l ≠ []) :
    generateProcessingInputs s rnd lists = pairTuples s rnd lists := by
  have hany : lists.any List.isEmpty = false := by
    simp only [List.any_eq_false]
    intro l hl
    simp [List.isEmpty_iff, hne l hl]
  simp only [generateProcessingInputs, hany, applySampleK, hk, Bool.false_eq_true,
    if_false]
  rfl

theorem moduloPairs_length (l1 l2s : List FPath) :
    (moduloPairs l1 l2s).length = l1.length := by
  simp [moduloPairs]

theorem moduloPairs_getElem (l1 l2s : List FPath) (i : Nat) (hi : i < l1.length) :
    (moduloPairs l1 l2s)[i]? =
      some [Arg.path (l1.getD i ""), Arg.path (l2s.getD (i % l2s.length) "")] := by
  simp [moduloPairs, List.getElem?_map, List.getElem?_range hi]

theorem moduloPairs_heads (l1 l2s : List FPath) :
    (moduloPairs l1 l2s).map (fun t => t.headD (Arg.flag false)) = l1.map Arg.path := by
  apply List.ext_getElem
  · simp [moduloPairs]
  · intro i h1 h2
    simp only [moduloPairs, List.getElem_map, List.getElem_range, List.headD_cons]
    have hi : i < l1.length := by simpa [moduloPairs] using h1
    rw [List.getD_eq_getElem?_getD, List.getElem?_eq_getElem hi]
    rfl

theorem minLen_le (ls : List (List FPath)) : ∀ l ∈ ls, minLen ls ≤ l.length := by
  induction ls with
  | nil => intro l hl; cases hl
  | cons a tl ih =>
    intro l hl
    cases tl with
    | nil =>
      rcases List.mem_cons.mp hl with h | h
      · subst h; exact le_of_eq rfl
      · cases h
    | cons b tl2 =>
      have hmin : minLen (a :: b :: tl2) = min a.length (minLen (b :: tl2)) := rfl
      rcases List.mem_cons.mp hl with h | h
      · subst h; rw [hmin]; exact min_le_left _ _
      · rw [hmin]; exact le_trans (min_le_right _ _) (ih l h)

theorem nzip_length (ls : List (List FPath)) (h : ls ≠ []) :
    (nzip ls).length = minLen ls := by
  cases ls with
  | nil => exact absurd rfl h
  | cons a tl => simp [nzip]

theorem nzip_getElem (ls : List (List FPath)) (hne : ls ≠ []) (i : Nat)
    (hi : i < minLen ls) :
    (nzip ls)[i]? = some (ls.map (fun l => l.getD i "")) := by
  cases ls with
  | nil => exact absurd rfl hne
  | cons a tl => simp [nzip, List.getElem?_map, List.getElem?_range hi]

theorem nzip_mem (ls : List (List FPath)) (tup : List FPath) (h : tup ∈ nzip ls) :
    ∃ i, i < minLen ls ∧ tup = ls.map (fun l => l.getD i "") := by
  cases ls with
  | nil => cases h
  | cons a tl =>
    simp only [nzip, List.mem_map, List.mem_range] at h
    obtain ⟨i, hi, rfl⟩ := h
    exact ⟨i, hi, rfl⟩

theorem sampleOne_eq (ids : List Nat) (l : List FPath)
    (h : ∀ i ∈ ids, i < l.length) :
    sampleOne ids l = some (ids.map (fun i => l.getD i "")) := by
  induction ids with
  | nil => rfl
  | cons i rest ih =>
    have hi := h i (List.mem_cons_self i rest)
    have hr := ih (fun j hj => h j (List.mem_cons_of_mem i hj))
    simp only [sampleOne, hr, List.getElem?_eq_getElem hi, List.map_cons]
    rw [List.getD_eq_getElem?_getD, List.getElem?_eq_getElem hi]
    rfl

theorem sampleAll_eq (ids : List Nat) (lists : List (List FPath))
    (h : ∀ l ∈ lists, ∀ i ∈ ids, i < l.length) :
    sampleAll ids lists =
      some (lists.map (fun l => ids.map (fun i => l.getD i ""))) := by
  induction lists with
  | nil => rfl
  | cons l ls ih =>
    have hl := h l (List.mem_cons_self l ls)
    have hr := ih (fun x hx => h x (List.mem_cons_of_mem l hx))
    simp only [sampleAll, sampleOne_eq ids l hl, hr, List.map_cons]

theorem listInsert_zero (a : α) (l : List α) : listInsert 0 a l = a :: l := by
  cases l <;> rfl

theorem listInsert_length (n : Nat) (a : α) (l : List α) (h : n ≤ l.length) :
    (listInsert n a l).length = l.length + 1 := by
  induction n generalizing l with
  | zero => rw [listInsert_zero]; rfl
  | succ n ih =>
    cases l with
    | nil => simp at h
    | cons x xs =>
      show (x :: listInsert n a xs).length = (x :: xs).length + 1
      simp only [List.length_cons, ih xs (Nat.le_of_succ_le_succ h)]

theorem listInsert_getElem_self (n : Nat) (a : α) (l : List α) (h : n ≤ l.length) :
    (listInsert n a l)[n]? = some a := by
  induction n generalizing l with
  | zero => rw [listInsert_zero]; exact List.getElem?_cons_zero
  | succ n ih =>
    cases l with
    | nil => simp at h
    | cons x xs =>
      show (x :: listInsert n a xs)[n + 1]? = some a
      rw [List.getElem?_cons_succ]
      exact ih xs (Nat.le_of_succ_le_succ h)

theorem listInsert_getElem_succ (n k : Nat) (a : α) (l : List α) (h : n ≤ k) :
    (listInsert n a l)[k + 1]? = l[k]? := by
  induction n generalizing l k with
  | zero => rw [listInsert_zero, List.getElem?_cons_succ]
  | succ n ih =>
    cases l with
    | nil =>
      show (a :: ([] : List α))[k + 1]? = ([] : List α)[k]?
      cases k with
      | zero => exact absurd h (by omega)
      | succ k0 => rw [List.getElem?_cons_succ]
    | cons x xs =>
      cases k with
      | zero => exact absurd h (by omega)
      | succ k0 =>
        show (x :: listInsert n a xs)[k0 + 1 + 1]? = (x :: xs)[k0 + 1]?
        rw [List.getElem?_cons_succ, List.getElem?_cons_succ]
        exact ih k0 xs (Nat.le_of_succ_le_succ h)

theorem listSet_length (n : Nat) (a : α) (l : List α) :
    (listSet n a l).length = l.length := by
  induction n generalizing l with
  | zero => cases l <;> rfl
  | succ n ih =>
    cases l with
    | nil => rfl
    | cons x xs =>
      show (x :: listSet n a xs).length = (x :: xs).length
      simp only [List.length_cons, ih xs]

theorem listSet_getElem_self (n : Nat) (a : α) (l : List α) (h : n < l.length) :
    (listSet n a l)[n]? = some a := by
  induction n generalizing l with
  | zero =>
    cases l with
    | nil => simp at h
    | cons x xs => show (a :: xs)[0]? = some a; exact List.getElem?_cons_zero
  | succ n ih =>
    cases l with
    | nil => simp at h
    | cons x xs =>
      show (x :: listSet n a xs)[n + 1]? = some a
      rw [List.getElem?_cons_succ]
      exact ih xs (Nat.lt_of_succ_lt_succ h)

/-! Claim theorems. -/

/-- C1 (code bug witness evaluation): on three argument tuples whose middle
item raises, the sequential branch of the processing loop logs the raising
item with status Error and still processes and logs the remaining items
(two successes, one error), exactly as the claim demands; but the
worker-pool branch on the same items aborts with the UnboundLocalError
caused by the misspelt errors_count increment in its except block, after
logging only the item completed before the failure.  One item failure
therefore does abort the step in worker-pool mode, contradicting the
claim that both modes isolate per-item failures. -/
theorem C1_worker_pool_error_aborts_step :
    processingLoop fC1 1 id (Except.ok tsC1) =
      Except.ok ([⟨[Arg.path "a"], some ["out"], Status.success, Option.none⟩,
                  ⟨[Arg.path "b"], Option.none, Status.error, some "boom"⟩,
                  ⟨[Arg.path "c"], some ["out"], Status.success, Option.none⟩], 2, 1) ∧
    processingLoop fC1 2 id (Except.ok tsC1) =
      Except.error (StepAbort.unboundLocal,
        [⟨[Arg.path "a"], some ["out"], Status.success, Option.none⟩]) :=
  ⟨rfl, rfl⟩

/-- C2 (code bug witness evaluation): a step run with the zip strategy over
two existing directories passes every precondition check and its argument
generator yields exactly two tuples, yet the worker-pool run whose first
completed future raises aborts through the errors_count UnboundLocalError
with an empty log: zero entries were appended for two yielded tuples, so
the exactly-one-entry-per-tuple accounting fails on the code. -/
theorem C2_parallel_run_drops_log_entries :
    generateProcessingInputs stepC2 rnd0 [["a1", "a2"], ["b1", "b2"]] =
      Except.ok [[Arg.path "a1", Arg.path "b1"], [Arg.path "a2", Arg.path "b2"]] ∧
    stepRun stepC2 fsC2 rnd0 = Except.error (StepAbort.unboundLocal, []) :=
  ⟨rfl, rfl⟩

/-- C3 (counterexample): the claim fails as stated.  On a single tuple
whose invocation raises, the sequential run completes with one Error entry
and counts (0, 1) while the worker-pool run aborts without completing, so
the two modes do not produce the same multiset of pairs; and on an empty
tuple sequence the sequential run completes with counts (0, 0) while the
worker-pool run aborts with RuntimeError. -/
theorem C3_counterexample :
    processingLoop fBoom 1 id (Except.ok [[Arg.path "x"]]) =
      Except.ok ([⟨[Arg.path "x"], Option.none, Status.error, some "boom"⟩], 0, 1) ∧
    processingLoop fBoom 2 id (Except.ok [[Arg.path "x"]]) =
      Except.error (StepAbort.unboundLocal, []) ∧
    processingLoop procOut 1 id (Except.ok ([] : List ArgTuple)) =
      Except.ok ([], 0, 0) ∧
    processingLoop procOut 2 id (Except.ok ([] : List ArgTuple)) =
      Except.error (StepAbort.runtimeNoArgs, []) :=
  ⟨rfl, rfl, rfl, rfl⟩

/-- C3 (amended): provided the generated tuple sequence is nonempty and no
invocation raises, a worker-pool run (any workerCount above one, any
completion order that permutes the submitted tuples) and a sequential run
produce the same multiset of (inputs, status) pairs and the same success
and error counts, differing only in log order. -/
theorem C3_amended_thm (f : ArgTuple → CallOutcome) (w : Int)
    (complete : List ArgTuple → List ArgTuple) (ts : List ArgTuple)
    (hw : 1 < w) (hperm : (complete ts).Perm ts) (hne : ts ≠ [])
    (hnr : ∀ t ∈ ts, isRaise (f t) = false) :
    ∃ plogs s e,
      processingLoop f w complete (Except.ok ts) = Except.ok (plogs, s, e) ∧
      processingLoop f 1 complete (Except.ok ts) = Except.ok (seqLoop f ts) ∧
      (plogs.map (fun en => (en.inputs, en.status))).Perm
        (((seqLoop f ts).1).map (fun en => (en.inputs, en.status))) ∧
      s = (seqLoop f ts).2.1 ∧ e = (seqLoop f ts).2.2 := by
  have hnot : ¬ ((0 : Int) ≤ w ∧ w ≤ 1) := by omega
  have hgt : (1 < w ∨ w = -1) := Or.inl hw
  have hisE : ¬ ts.isEmpty = true := by simp [List.isEmpty_iff, hne]
  have hnr2 : ∀ t ∈ complete ts, isRaise (f t) = false :=
    fun t ht => hnr t (hperm.mem_iff.mp ht)
  have hpar : processingLoop f w complete (Except.ok ts) =
      Except.ok (seqLoop f (complete ts)) := by
    unfold processingLoop
    rw [if_neg hnot, if_pos hgt]
    show (if ts.isEmpty = true then Except.error (StepAbort.runtimeNoArgs, [])
      else parLoopGo f (complete ts)) = Except.ok (seqLoop f (complete ts))
    rw [if_neg hisE]
    exact parLoopGo_no_raise f (complete ts) hnr2
  refine ⟨(seqLoop f (complete ts)).1, (seqLoop f (complete ts)).2.1,
    (seqLoop f (complete ts)).2.2, ?_, ?_, ?_, ?_, ?_⟩
  · rw [hpar]
  · unfold processingLoop
    rw [if_pos (by norm_num : (0 : Int) ≤ 1 ∧ (1 : Int) ≤ 1)]
  · rw [seqLoop_logs, seqLoop_logs, List.map_map, List.map_map]
    exact hperm.map _
  · rw [seqLoop_success, seqLoop_success]
    exact hperm.countP_eq _
  · rw [seqLoop_errors, seqLoop_errors]
    exact hperm.countP_eq _

/-- C3 (witness): the amended equivalence instantiated on two succeeding
tuples with the reversed completion order. -/
theorem C3_amended_witness :
    ∃ plogs s e,
      processingLoop procOut 2 List.reverse (Except.ok tsC3) = Except.ok (plogs, s, e) ∧
      processingLoop procOut 1 List.reverse (Except.ok tsC3) =
        Except.ok (seqLoop procOut tsC3) ∧
      (plogs.map (fun en => (en.inputs, en.status))).Perm
        (((seqLoop procOut tsC3).1).map (fun en => (en.inputs, en.status))) ∧
      s = (seqLoop procOut tsC3).2.1 ∧ e = (seqLoop procOut tsC3).2.2 :=
  C3_amended_thm procOut 2 List.reverse tsC3 (by norm_num) (List.reverse_perm tsC3)
    (by decide) (by decide)

/-- C4 (counterexample): a fixed-input step whose inputDirs are still empty
at add time does get them overwritten by the chaining: adding stepB4 (with
fixedInput true and empty inputPaths) at the end of the one-step pipeline
rewrites its inputPaths to the outputPaths of stepA4, so the claim that
chaining never overwrites a fixed-input step at add time is false. -/
theorem C4_counterexample :
    stepB4.fixedInput = true ∧ stepB4.inputPaths = [] ∧
    (add_step plC4 stepB4 Option.none).map (fun pl2 => pl2.steps.map Step.inputPaths)
      = Except.ok [["inA"], ["outA"]] :=
  ⟨rfl, rfl, rfl⟩

/-- C4 (amended): chaining never overwrites a fixed-input step when some
other step is inserted immediately before it (the whole next step survives
unchanged), and the added step itself keeps its own inputDirs whenever
they are non-empty at add time; only a step added with empty inputDirs has
them filled from the previous step outputs, fixed-input flag or not. -/
theorem C4_amended_thm (pl : Pipeline) (step0 nextStep : Step) (pos : Nat) (pl2 : Pipeline)
    (hroot : pl.rootDir = Option.none)
    (hnext : pl.steps[pos]? = some nextStep)
    (hfix : nextStep.fixedInput = true)
    (hadd : add_step pl step0 (some pos) = Except.ok pl2) :
    pl2.steps[pos + 1]? = some nextStep ∧
    (step0.inputPaths ≠ [] → pl2.steps[pos]? = some step0) := by
  obtain ⟨hltn, -⟩ := List.getElem?_eq_some.mp hnext
  have hne : pl.steps.isEmpty = false := by
    cases hsteps : pl.steps with
    | nil => rw [hsteps] at hltn; simp at hltn
    | cons a tl => rfl
  simp only [add_step, hne, hroot, Bool.false_eq_true, false_and, if_false,
    Option.isSome_none, Option.getD_some] at hadd
  by_cases hin : step0.inputPaths.isEmpty = true
  · simp only [hin, if_true] at hadd
    by_cases hp0 : pos = 0
    · simp only [hp0, if_true] at hadd
      cases hadd
    · simp only [hp0, if_false] at hadd
      rcases hprev : pl.steps[pos - 1]? with _ | prev
      · rw [hprev] at hadd
        cases hadd
      · rw [hprev, hnext] at hadd
        simp only [hfix, if_true] at hadd
        cases hadd
        constructor
        · rw [listInsert_getElem_succ pos pos _ _ (Nat.le_refl pos)]
          exact hnext
        · intro hne2
          exact absurd (List.isEmpty_iff.mp hin) hne2
  · simp only [hin, if_false] at hadd
    cases hadd
    constructor
    · rw [listInsert_getElem_succ pos pos _ _ (Nat.le_refl pos)]
      exact hnext
    · intro hne2
      exact listInsert_getElem_self pos _ _ (Nat.le_of_lt hltn)

/-- C4 (witness): inserting a step with explicit non-empty inputs in front
of the fixed-input step nextW4 leaves nextW4 untouched at position one and
the inserted step keeps its own inputs at position zero. -/
theorem C4_amended_witness :
    plW4b.steps[0 + 1]? = some nextW4 ∧
    (selfW4.inputPaths ≠ [] → plW4b.steps[0]? = some selfW4) :=
  C4_amended_thm plW4 selfW4 nextW4 0 plW4b rfl rfl rfl rfl

/-- C5 (code bug witness evaluation): the first step of the pipeline sees
an existing input directory whose listing is empty; the generator raises
the FileNotFoundError naming that directory, before any callable runs and
with an empty log, as the claim says, but because the exception surfaces
lazily inside the processing loop where nothing catches it, the whole
pipeline run aborts and the second step never runs, although that second
step completes successfully when run on its own; the failure is fatal at
the pipeline level, contradicting the claim. -/
theorem C5_empty_listing_aborts_pipeline :
    pipelineRun plC5 fsC5 rnd0 0 false =
      Except.error (PipelineError.abort (StepAbort.gen (GenError.emptyInput ["dEmpty"])) []) ∧
    stepRun stepC5b fsC5 rnd0 =
      Except.ok (RunOutcome.completed
        [⟨[Arg.path "f"], some ["out"], Status.success, Option.none⟩] 1 0) :=
  ⟨rfl, rfl⟩

/-- C6 (counterexample): with sample_k equal to two, listings of lengths
three and two (both at least two long, as the claim requires) and the
perfectly legitimate uniform draw of the distinct ids zero and two from
the index range of the first listing, generation faults with an
IndexError: id two is past the bounds of the second listing, so sampling
under the stated hypothesis is not fault free. -/
theorem C6_counterexample :
    rndC6.sampleIds 3 2 = [0, 2] ∧
    (List.Nodup [0, 2] ∧ ∀ i ∈ ([0, 2] : List Nat), i < 3) ∧
    (∀ l ∈ listsC6, 2 ≤ l.length) ∧
    generateProcessingInputs stepC6 rndC6 listsC6 = Except.error GenError.indexError :=
  ⟨rfl, ⟨by decide, by decide⟩, by decide, rfl⟩

/-- C6 (amended): when every listing is at least as long as the first
listing (rather than merely at least K long), the sample_k pre-selection
applies the same drawn index set to every listing and never faults: it
returns, for each listing, exactly the elements at the drawn ids. -/
theorem C6_amended_thm (s : Step) (rnd : RandomSource) (k : Nat)
    (l0 : List FPath) (rest : List (List FPath))
    (hk : s.sampleK = some k) (hk0 : k ≠ 0) (hkle : k ≤ l0.length)
    (hids : ∀ i ∈ rnd.sampleIds l0.length k, i < l0.length)
    (hlen : ∀ l ∈ (l0 :: rest), l0.length ≤ l.length) :
    applySampleK s rnd (l0 :: rest) =
      Except.ok ((l0 :: rest).map (fun l =>
        (rnd.sampleIds l0.length k).map (fun i => l.getD i ""))) := by
  have hall : ∀ l ∈ (l0 :: rest), ∀ i ∈ rnd.sampleIds l0.length k, i < l.length :=
    fun l hl i hi => Nat.lt_of_lt_of_le (hids i hi) (hlen l hl)
  have hlt : ¬ l0.length < k := by omega
  simp only [applySampleK, hk, hk0, if_false, hlt, sampleAll_eq _ _ hall]

/-- C6 (witness): the amended sampling on two equal-length listings with
the drawn ids one and zero selects the corresponding elements of both. -/
theorem C6_amended_witness :
    applySampleK stepC6w rndC6w listsC6w = Except.ok [["y", "x"], ["q", "p"]] :=
  C6_amended_thm stepC6w rndC6w 2 ["x", "y"] [["p", "q"]] rfl (by decide) (by decide)
    (by decide) (by decide)

/-- C7 (confirmed): for the modulo strategy on two non-empty listings with
no sample_k, generation succeeds and yields exactly one tuple per element
of listing zero; the tuple at index i pairs that element with the once
shuffled listing one at index i mod n, where n is the length of listing
one, and the first components enumerate listing zero exactly once in
listing order. -/
theorem C7_modulo_pairing (s : Step) (rnd : RandomSource) (l1 l2 : List FPath)
    (hm : s.pairingMethod = Mode.modulo) (hk : s.sampleK = Option.none)
    (h1 : l1 ≠ []) (h2 : l2 ≠ [])
    (hsh : (rnd.shuffle l2).Perm l2) :
    ∃ tuples, generateProcessingInputs s rnd [l1, l2] = Except.ok tuples ∧
      tuples.length = l1.length ∧
      (∀ i, i < l1.length → tuples[i]? =
        some [Arg.path (l1.getD i ""),
              Arg.path ((rnd.shuffle l2).getD (i % l2.length) "")]) ∧
      tuples.map (fun t => t.headD (Arg.flag false)) = l1.map Arg.path := by
  have hne : ∀ l ∈ [l1, l2], l ≠ [] := by
    intro l hl
    rcases List.mem_cons.mp hl with h | h
    · exact h ▸ h1
    · rcases List.mem_cons.mp h with h | h
      · exact h ▸ h2
      · cases h
  have hgen := generate_no_sample s rnd [l1, l2] hk hne
  refine ⟨moduloPairs l1 (rnd.shuffle l2), ?_, moduloPairs_length _ _, ?_,
    moduloPairs_heads _ _⟩
  · rw [hgen]
    simp [pairTuples, hm]
  · intro i hi
    rw [moduloPairs_getElem _ _ i hi, hsh.length_eq]

/-- C7 (witness): the modulo generation on listings of lengths three and
two with the identity shuffle. -/
theorem C7_modulo_witness :
    ∃ tuples, generateProcessingInputs stepC7 rnd0 [["a", "b", "c"], ["p", "q"]] =
        Except.ok tuples ∧
      tuples.length = (["a", "b", "c"] : List FPath).length ∧
      (∀ i, i < (["a", "b", "c"] : List FPath).length → tuples[i]? =
        some [Arg.path ((["a", "b", "c"] : List FPath).getD i ""),
              Arg.path ((rnd0.shuffle ["p", "q"]).getD
                (i % (["p", "q"] : List FPath).length) "")]) ∧
      tuples.map (fun t => t.headD (Arg.flag false)) =
        (["a", "b", "c"] : List FPath).map Arg.path :=
  C7_modulo_pairing stepC7 rnd0 ["a", "b", "c"] ["p", "q"] rfl rfl (by decide) (by decide)
    (List.Perm.refl _)

/-- C8 (confirmed): adding a step with empty inputDirs at any position
with a predecessor makes it inherit the predecessor outputPaths, both at
the end and at an interior position, and when the step previously at the
insertion point is not fixed-input its inputPaths are rewired to the
inserted step outputPaths: the chain A to B becomes A to X to B. -/
theorem C8_add_step_chaining (pl : Pipeline) (step0 prev : Step) (pos : Nat)
    (hroot : pl.rootDir = Option.none)
    (hempty : step0.inputPaths = [])
    (hpos : 1 ≤ pos)
    (hprev : pl.steps[pos - 1]? = some prev) :
    ∃ pl2, add_step pl step0 (some pos) = Except.ok pl2 ∧
      pl2.steps[pos]? = some { step0 with inputPaths := prev.outputPaths } ∧
      (∀ nextStep, pl.steps[pos]? = some nextStep → nextStep.fixedInput = false →
        pl2.steps[pos + 1]? = some { nextStep with inputPaths := step0.outputPaths }) := by
  obtain ⟨hlt, -⟩ := List.getElem?_eq_some.mp hprev
  have hlen : pos ≤ pl.steps.length := by omega
  have hne : pl.steps.isEmpty = false := by
    cases hsteps : pl.steps with
    | nil => rw [hsteps] at hlt; simp at hlt
    | cons a tl => rfl
  have hp0 : ¬ pos = 0 := by omega
  simp only [add_step, hne, hroot, hempty, Bool.false_eq_true, false_and,
    if_false, Option.isSome_none, Option.getD_some, List.isEmpty_nil, if_true, hp0, hprev]
  rcases hnext : pl.steps[pos]? with _ | nextStep
  · refine ⟨_, rfl, ?_, ?_⟩
    · exact listInsert_getElem_self pos _ _ hlen
    · intro n hn hfix
      cases hn
  · obtain ⟨hltn, -⟩ := List.getElem?_eq_some.mp hnext
    by_cases hf : nextStep.fixedInput = true
    · simp only [hf, if_true]
      refine ⟨_, rfl, listInsert_getElem_self pos _ _ hlen, ?_⟩
      intro n hn hfix
      injection hn with he
      rw [he] at hf
      rw [hf] at hfix
      cases hfix
    · simp only [hf, if_false, Bool.false_eq_true]
      refine ⟨_, rfl, ?_, ?_⟩
      · exact listInsert_getElem_self pos _ _ (by rw [listSet_length]; exact hlen)
      · intro n hn hfix
        injection hn with he
        subst he
        rw [listInsert_getElem_succ pos pos _ _ (Nat.le_refl pos)]
        simp only [hfix]
        exact listSet_getElem_self pos _ _ hltn

/-- C8 (witness): inserting the inputless stepX8 between stepA8 and
stepB8 gives it the outputs of stepA8 as inputs and rewires stepB8 to the
outputs of stepX8. -/
theorem C8_add_step_witness :
    ∃ pl2, add_step plC8 stepX8 (some 1) = Except.ok pl2 ∧
      pl2.steps[1]? = some { stepX8 with inputPaths := stepA8.outputPaths } ∧
      (∀ nextStep, plC8.steps[1]? = some nextStep → nextStep.fixedInput = false →
        pl2.steps[1 + 1]? = some { nextStep with inputPaths := stepX8.outputPaths }) :=
  C8_add_step_chaining plC8 stepX8 stepA8 1 rfl rfl (by decide) rfl

/-- C9 (confirmed): for the zip strategy on at least two non-empty
listings with no sample_k, generation succeeds and yields exactly as many
tuples as the shortest listing is long; the tuple at index i combines the
elements of all listings at index i in input directory order, every
yielded tuple arises from such an index below the minimum length (so
trailing items of longer listings never appear in a tuple), and the log
entries of a sequential run carry exactly the yielded tuples as inputs. -/
theorem C9_zip_truncation (s : Step) (rnd : RandomSource) (lists : List (List FPath))
    (hm : s.pairingMethod = Mode.zip) (hk : s.sampleK = Option.none)
    (h2 : 2 ≤ lists.length) (hne : ∀ l ∈ lists, l ≠ []) :
    ∃ tuples, generateProcessingInputs s rnd lists = Except.ok tuples ∧
      tuples.length = minLen lists ∧
      (∀ i, i < minLen lists →
        tuples[i]? = some (lists.map (fun l => Arg.path (l.getD i "")))) ∧
      (∀ tup ∈ tuples, ∃ i, i < minLen lists ∧
        tup = lists.map (fun l => Arg.path (l.getD i ""))) ∧
      (∀ f, ((seqLoop f tuples).1).map LogEntry.inputs = tuples) := by
  have hnil : lists ≠ [] := by
    intro h
    rw [h] at h2
    simp at h2
  have hgen := generate_no_sample s rnd lists hk hne
  have hnlt : ¬ lists.length < 2 := by omega
  refine ⟨(nzip lists).map (fun tup => tup.map Arg.path), ?_, ?_, ?_, ?_, ?_⟩
  · rw [hgen]
    simp [pairTuples, hm, hnlt]
  · rw [List.length_map, nzip_length lists hnil]
  · intro i hi
    rw [List.getElem?_map, nzip_getElem lists hnil i hi]
    simp [List.map_map]
  · intro tup htup
    rw [List.mem_map] at htup
    obtain ⟨tup0, h0, rfl⟩ := htup
    obtain ⟨i, hi, rfl⟩ := nzip_mem lists tup0 h0
    exact ⟨i, hi, by simp [List.map_map]⟩
  · intro f
    rw [seqLoop_logs, List.map_map]
    have hcongr : ∀ t ∈ (nzip lists).map (fun tup => tup.map Arg.path),
        (LogEntry.inputs ∘ fun t => (processItem f t).1) t = t := by
      intro t ht
      exact processItem_inputs f t
    rw [List.map_congr_left hcongr]
    exact List.map_id _

/-- C9 (witness): the zip generation on listings of lengths five and
three. -/
theorem C9_zip_witness :
    ∃ tuples, generateProcessingInputs stepC9 rnd0 listsC9 = Except.ok tuples ∧
      tuples.length = minLen listsC9 ∧
      (∀ i, i < minLen listsC9 →
        tuples[i]? = some (listsC9.map (fun l => Arg.path (l.getD i "")))) ∧
      (∀ tup ∈ tuples, ∃ i, i < minLen listsC9 ∧
        tup = listsC9.map (fun l => Arg.path (l.getD i ""))) ∧
      (∀ f, ((seqLoop f tuples).1).map LogEntry.inputs = tuples) :=
  C9_zip_truncation stepC9 rnd0 listsC9 rfl rfl (by decide) (by decide)

/-- C10 (confirmed): a custom pairing function yielding zero tuples makes
the worker-pool run of the step abort with the RuntimeError raised on an
empty materialised argument list, while the sequential run of the very
same step completes normally with an empty log and zero successes and
zero errors: the two execution modes diverge on empty work. -/
theorem C10_empty_work_divergence :
    stepRun stepC10 fsC10 rnd0 = Except.error (StepAbort.runtimeNoArgs, []) ∧
    stepRun stepC10seq fsC10 rnd0 = Except.ok (RunOutcome.completed [] 0 0) :=
  ⟨rfl, rfl⟩
